import Mathlib

/-!
Verification of the mcp-memory service (`services/mcp-memory/app`).

The Python source is shallowly embedded: the storage layer
(`storage/postgres.py`) becomes pure functions over an explicit `Db` state,
the Redis cache (`storage/redis_cache.py`) becomes pure functions over a
`CacheState`, and the HTTP handlers (`main.py`) and gateway hooks
(`gateway/middleware.py`) become functions composing them.  SHA-256, the
embedding provider, the pgvector cosine-distance operator `<=>` and the
pg_trgm `similarity` function are opaque to every claim considered here,
so they are passed in as function parameters; timestamps produced by the
server clock (`now()`) are passed explicitly as naturals.  SQL numeric
values are idealised as rationals.
-/

set_option maxRecDepth 8000
set_option maxHeartbeats 1000000

deriving instance DecidableEq for Except

namespace McpMemory



/-! ## Whitespace normalisation (storage/postgres.py, compute_content_hash /
write_memory)

The code computes `" ".join(content.strip().split())`.  `pyStrip` models
Python `str.strip()`, `pySplit` models no-argument `str.split()` (maximal
runs of non-whitespace characters), `joinSp` models `" ".join`. -/

def isWS (c : Char) : Bool := c.isWhitespace


/-- Python `str.strip()`: remove leading and trailing whitespace. -/
def pyStrip (l : List Char) : List Char :=
  ((l.dropWhile isWS).reverse.dropWhile isWS).reverse


/-- Accumulator loop for `pySplit`; `acc` is the current word, reversed. -/
def pySplitGo (acc : List Char) : List Char → List (List Char)
  | [] => if acc.isEmpty then [] else [acc.reverse]
  | c :: cs =>
    if isWS c then
      if acc.isEmpty then pySplitGo [] cs else acc.reverse :: pySplitGo [] cs
    else pySplitGo (c :: acc) cs


/-- Python `str.split()` with no argument: the maximal runs of
non-whitespace characters, in order. -/
def pySplit (l : List Char) : List (List Char) := pySplitGo [] l


/-- Python `" ".join(ws)` on character-list words. -/
def joinSp : List (List Char) → List Char
  | [] => []
  | w :: ws =>
    match ws with
    | [] => w
    | _ :: _ => w ++ ' ' :: joinSp ws


/-- The code's normalisation, `" ".join(content.strip().split())`, on
character lists. -/
def pyNormalizeL (l : List Char) : List Char := joinSp (pySplit (pyStrip l))


/-- The code's normalisation on strings (postgres.py lines 34 and 123). -/
def pyNormalize (s : String) : String := String.mk (pyNormalizeL s.toList)


/-- Loop for the spec's run collapsing; the flag records whether the
previous character was whitespace (i.e. we are inside a run that has
already emitted its single space). -/
def collapseGo (prevWS : Bool) : List Char → List Char
  | [] => []
  | c :: cs =>
    if isWS c then
      if prevWS then collapseGo true cs else ' ' :: collapseGo true cs
    else c :: collapseGo false cs


/-- Modelled from the spec: "collapse any run of whitespace to a single
space". -/
def collapseWS (l : List Char) : List Char := collapseGo false l


/-- Modelled from the spec: "`normalize(content)` = trim outer whitespace,
collapse any run of whitespace to a single space" (spec §4.1). -/
def specNormalizeL (l : List Char) : List Char := collapseWS (pyStrip l)


/-- The spec's normalisation on strings. -/
def specNormalize (s : String) : String := String.mk (specNormalizeL s.toList)


/-! ### The refinement: the code's normalisation equals the spec's -/

/-- No leading whitespace character. -/
def NoLead (l : List Char) : Prop := ∀ c, l.head? = some c → isWS c = false


/-- No trailing whitespace character. -/
def NoTrail (l : List Char) : Prop := ∀ c, l.getLast? = some c → isWS c = false


/-! ## Identity and hashing (storage/postgres.py lines 20-35)

SHA-256 itself is opaque to every claim here: what matters is which string
is hashed and that equal inputs give equal digests.  It is therefore passed
in as a parameter `sha : String → String` standing for
`hashlib.sha256(s.encode()).hexdigest()`. -/

/-- Model of `_make_memory_id`: `"mem_" + content_hash[:24]` (postgres.py line 30). -/
def make_memory_id (content_hash : String) : String :=
  "mem_" ++ content_hash.take 24


/-- Rendering of an optional scope dimension inside the Python f-string:
`None` prints as the literal string `"None"`. -/
def optStr : Option String → String
  | none => "None"
  | some s => s


/-- The four optional scope dimensions (models.py `ScopeIn`). -/
structure ScopeIn where
  channel_id : Option String
  conversation_id : Option String
  project_id : Option String
  task_id : Option String
deriving DecidableEq, Repr


/-- Model of `_make_scope_id` (postgres.py lines 24-26). -/
def make_scope_id (sha : String → String) (tenant_id : String) (scope : ScopeIn) :
    String :=
  "sc_" ++ (sha (tenant_id ++ "|" ++ optStr scope.channel_id ++ "|"
    ++ optStr scope.conversation_id ++ "|" ++ optStr scope.project_id ++ "|"
    ++ optStr scope.task_id)).take 24


/-- Model of `compute_content_hash` (postgres.py lines 33-35): hash of
`f"{kind}|{title or ''}|{normalized}"` where `normalized` is the code's
whitespace normalisation.  For a string, Python `title or ''` agrees with
`Option.getD "" : Option String → String` (an empty title is mapped to the
empty string either way). -/
def compute_content_hash (sha : String → String) (kind : String)
    (title : Option String) (content : String) : String :=
  sha (kind ++ "|" ++ title.getD "" ++ "|" ++ pyNormalize content)


/-- Modelled from the spec: `content_hash(kind, title, content)` =
sha256(kind ‖ '|' ‖ title ?? '' ‖ '|' ‖ normalize(content)) with the spec's
`normalize` (spec §4.1). -/
def spec_content_hash (sha : String → String) (kind : String)
    (title : Option String) (content : String) : String :=
  sha (kind ++ "|" ++ title.getD "" ++ "|" ++ specNormalize content)


/-! ## Durable store (storage/postgres.py)

The relational state is embedded as lists of rows.  The two uniqueness
constraints that matter to the claims are the primary key on
`memory_entries.id` and the unique index on
(`tenant_id`, `scope_id`, `kind`, `content_hash`); they come from the SQL
migrations, which are not part of the sources — they are modelled from the
spec §4.2 schema (`memory_entries(id PK, ...)`, unique on
(tenant_id, scope_id, kind, content_hash)), as are the `created_at` /
`updated_at` column defaults (`now()`, spec §3 "server clock").

`INSERT ... ON CONFLICT (tenant_id, scope_id, kind, content_hash) DO UPDATE
SET updated_at = now()` therefore behaves as: if a row with the arbiter
tuple exists, update its `updated_at` only; otherwise attempt a plain
insert, which raises a uniqueness violation when the primary key `id`
collides with an existing row (the arbiter does not cover the PK). -/

structure EntryRow where
  id : String
  tenant_id : String
  scope_id : String
  kind : String
  title : Option String
  content : String
  tags : List String
  source : Option String
  author_agent_id : Option String
  tool_name : Option String
  content_hash : String
  created_at : ℕ
  updated_at : ℕ
deriving DecidableEq, Repr


structure EmbeddingRow where
  memory_id : String
  embedding : List ℚ
deriving DecidableEq, Repr


structure LinkRow where
  id : ℕ
  tenant_id : String
  from_memory_id : String
  to_memory_id : String
  relation : String
  created_at : ℕ
deriving DecidableEq, Repr


structure AttachmentRow where
  id : String
  tenant_id : String
  memory_id : String
  blob_key : String
  filename : String
  mime_type : String
  bytes : ℕ
  sha256 : String
  created_at : ℕ
deriving DecidableEq, Repr


structure Db where
  tenants : List String
  scopes : List (String × String × ScopeIn)
  entries : List EntryRow
  embeddings : List EmbeddingRow
  links : List LinkRow
  attachments : List AttachmentRow
deriving DecidableEq, Repr


def Db.empty : Db := ⟨[], [], [], [], [], []⟩


inductive DbError
  | uniqueViolation
deriving DecidableEq, Repr


/-- The arbiter tuple of the entry upsert:
(tenant_id, scope_id, kind, content_hash). -/
def sameTuple (tenant_id scope_id kind content_hash : String) (r : EntryRow) :
    Bool :=
  r.tenant_id == tenant_id && r.scope_id == scope_id && r.kind == kind
    && r.content_hash == content_hash


/-- Model of `ensure_tenant` (postgres.py lines 75-81): insert-on-conflict-do-nothing. -/
def ensure_tenant (db : Db) (tenant_id : String) : Db :=
  if db.tenants.contains tenant_id then db
  else { db with tenants := db.tenants ++ [tenant_id] }


/-- Model of `get_or_create_scope` (postgres.py lines 85-103): derive the scope id and
insert the scope row on conflict-do-nothing; returns the scope id. -/
def get_or_create_scope (db : Db) (sha : String → String) (tenant_id : String)
    (scope : ScopeIn) : Db × String :=
  let scope_id := make_scope_id sha tenant_id scope
  if db.scopes.any (fun p => p.1 == scope_id) then (db, scope_id)
  else ({ db with scopes := db.scopes ++ [(scope_id, tenant_id, scope)] }, scope_id)


/-- Embedding upsert: `INSERT ... ON CONFLICT (memory_id) DO UPDATE SET
embedding = EXCLUDED.embedding` (postgres.py lines 152-160).  The list-of-
floats-to-vector-string serialisation is transparent and omitted. -/
def upsert_embedding (db : Db) (mem_id : String) (embedding : List ℚ) : Db :=
  if db.embeddings.any (fun e => e.memory_id == mem_id) then
    { db with embeddings := db.embeddings.map (fun e =>
        if e.memory_id == mem_id then { e with embedding := embedding } else e) }
  else
    { db with embeddings := db.embeddings ++ [⟨mem_id, embedding⟩] }


/-- The `SELECT ... WHERE id = $1 AND tenant_id = $2` at the end of
`write_memory` (postgres.py lines 162-171); also `get_memory`
(postgres.py lines 253-267).  The SQL projects a fixed column list; the
model returns the whole row. -/
def get_memory (db : Db) (tenant_id memory_id : String) : Option EntryRow :=
  db.entries.find? (fun r => r.id == memory_id && r.tenant_id == tenant_id)


/-- The `DO UPDATE SET updated_at = now()` arm of the entry upsert, applied
to a row: a row matching the arbiter tuple gets its `updated_at` replaced
and nothing else. -/
def updTuple (tenant_id scope_id kind content_hash : String) (now : ℕ)
    (r : EntryRow) : EntryRow :=
  if sameTuple tenant_id scope_id kind content_hash r then
    { r with updated_at := now }
  else r


/-- Model of `write_memory` (postgres.py lines 107-173): upsert the entry keyed by
the arbiter tuple, upsert the embedding, then re-select the row by
(id, tenant_id).  A Python `None` row becomes `{}` at the call site, hence
the `Option EntryRow` in the result; a database uniqueness error aborts the
transaction, hence `Except`. -/
def write_memory (db : Db) (now : ℕ) (tenant_id scope_id kind : String)
    (title : Option String) (content : String) (tags : List String)
    (source author_agent_id tool_name : Option String)
    (content_hash : String) (embedding : List ℚ) :
    Except DbError (Db × Option EntryRow) :=
  let mem_id := make_memory_id content_hash
  let normalized_content := pyNormalize content
  match db.entries.find? (sameTuple tenant_id scope_id kind content_hash) with
  | some _ =>
    let entries' := db.entries.map (updTuple tenant_id scope_id kind content_hash now)
    let db' := { db with entries := entries' }
    let db'' := upsert_embedding db' mem_id embedding
    .ok (db'', get_memory db'' tenant_id mem_id)
  | none =>
    if db.entries.any (fun r => r.id == mem_id) then
      .error .uniqueViolation
    else
      let row : EntryRow :=
        { id := mem_id, tenant_id := tenant_id, scope_id := scope_id,
          kind := kind, title := title, content := normalized_content,
          tags := tags, source := source, author_agent_id := author_agent_id,
          tool_name := tool_name, content_hash := content_hash,
          created_at := now, updated_at := now }
      let db' := { db with entries := db.entries ++ [row] }
      let db'' := upsert_embedding db' mem_id embedding
      .ok (db'', get_memory db'' tenant_id mem_id)


/-- Model of `get_attachments` (postgres.py lines 269-282): filters by memory id AND
tenant. -/
def get_attachments (db : Db) (tenant_id memory_id : String) :
    List AttachmentRow :=
  db.attachments.filter (fun a => a.memory_id == memory_id
    && a.tenant_id == tenant_id)


/-- Model of `get_links_from` (postgres.py lines 284-296): `WHERE from_memory_id = $1`
— note the absence of any tenant predicate. -/
def get_links_from (db : Db) (memory_id : String) : List LinkRow :=
  db.links.filter (fun l => l.from_memory_id == memory_id)


/-- Model of `get_links_to` (postgres.py lines 298-310): `WHERE to_memory_id = $1`
— note the absence of any tenant predicate. -/
def get_links_to (db : Db) (memory_id : String) : List LinkRow :=
  db.links.filter (fun l => l.to_memory_id == memory_id)


/-- Model of `add_tag` (postgres.py lines 454-464): `SET tags = array_append(tags, $2),
updated_at = now() WHERE id = $1 AND NOT ($2 = ANY(tags))`. -/
def add_tag (db : Db) (now : ℕ) (memory_id tag : String) : Db :=
  { db with entries := db.entries.map (fun r =>
      if r.id == memory_id && !(r.tags.contains tag) then
        { r with tags := r.tags ++ [tag], updated_at := now }
      else r) }


/-! ## Hybrid search (storage/postgres.py, search_memory)

The single SQL statement is decomposed CTE by CTE.  pgvector's cosine
distance `<=>` and pg_trgm's `similarity` are opaque numeric functions and
are passed as parameters `dist` and `sim`.  SQL `ORDER BY` leaves the
relative order of ties unspecified; the model resolves this
nondeterminism with a stable insertion sort over the table (filter) order,
which is one legal execution. -/

/-- Insert `x` into `l` before the first element whose key is strictly
smaller, i.e. keep `l`'s order among elements with keys ≥ `key x`. -/
def insertDescBy {α : Type} (key : α → ℚ) (x : α) : List α → List α
  | [] => [x]
  | y :: ys => if key y < key x then x :: y :: ys else y :: insertDescBy key x ys


/-- Stable sort by `key`, descending (models SQL `ORDER BY key DESC`). -/
def sortDescBy {α : Type} (key : α → ℚ) (l : List α) : List α :=
  l.foldl (fun acc x => insertDescBy key x acc) []


/-- Stable sort ascending (models SQL `ORDER BY key` as used for
`ORDER BY mb.embedding <=> $1::vector`). -/
def sortAscBy {α : Type} (key : α → ℚ) (l : List α) : List α :=
  sortDescBy (fun a => -key a) l


/-- Pairwise-descending order on keys. -/
def SortedDesc {α : Type} (key : α → ℚ) (l : List α) : Prop :=
  l.Pairwise (fun a b => key b ≤ key a)


/-- The shared WHERE clause of both CTEs (postgres.py lines 204-209 and
220-225): tenant, scope, optional kind list, optional tag overlap
(`me.tags && $5`), optional closed time window.  `search_memory` receives
`kinds if kinds else None` / `tags if tags else None`, hence the
`Option (List String)` filters. -/
def matchesFilters (tenant_id scope_id : String)
    (kinds tags : Option (List String)) (ts te : Option ℕ) (r : EntryRow) :
    Bool :=
  r.tenant_id == tenant_id && r.scope_id == scope_id
    && (match kinds with | none => true | some ks => ks.contains r.kind)
    && (match tags with | none => true | some tg => r.tags.any (fun t => tg.contains t))
    && (match ts with | none => true | some a => decide (a ≤ r.created_at))
    && (match te with | none => true | some b => decide (r.created_at ≤ b))


/-- The `keyword` CTE's score:
`GREATEST(similarity(content, q), similarity(COALESCE(title, ''), q))`. -/
def kwScoreOf (sim : String → String → ℚ) (query_text : String) (r : EntryRow) :
    ℚ :=
  max (sim r.content query_text) (sim (r.title.getD "") query_text)


/-- Model of `search_memory` (postgres.py lines 177-249).

* `candidates`: filtered entries joined with their embedding row, the 50
  nearest by `dist` (cosine distance `<=>`), each with
  `vec_score = 1 - dist`.
* `keyword`: filtered entries (no embedding join), top 50 by trigram
  score, descending.
* final: candidates left-joined with keyword on id, scored
  `vec_score * 0.75 + COALESCE(kw_score, 0) * 0.25`, ordered by score
  descending, limited to `top_k`.

The SQL projects a fixed column list; the model returns the whole entry
row paired with its fused score. -/
def search_memory (db : Db) (dist : List ℚ → List ℚ → ℚ)
    (sim : String → String → ℚ) (tenant_id scope_id : String)
    (query_embedding : List ℚ) (query_text : String) (top_k : ℕ)
    (kinds tags : Option (List String)) (ts te : Option ℕ) :
    List (EntryRow × ℚ) :=
  let filtered := db.entries.filter (matchesFilters tenant_id scope_id kinds tags ts te)
  let joined := filtered.filterMap (fun r =>
    (db.embeddings.find? (fun e => e.memory_id == r.id)).map
      (fun e => (r, dist e.embedding query_embedding)))
  let candidates := ((sortAscBy (fun p => p.2) joined).take 50).map
    (fun p => (p.1, 1 - p.2))
  let keyword := ((sortDescBy (kwScoreOf sim query_text) filtered).take 50).map
    (fun r => (r.id, kwScoreOf sim query_text r))
  let fused := candidates.map (fun p =>
    (p.1, p.2 * 0.75
      + (match keyword.find? (fun q => q.1 == p.1.id) with
         | some q => q.2
         | none => 0) * 0.25))
  (sortDescBy (fun p => p.2) fused).take top_k


/-! ## Redis cache (storage/redis_cache.py)

The cache state is the set of live search-cache keys plus the working-set
lists.  Values of search-cache keys are irrelevant to the claims and
omitted. -/

def working_set_key (tenant_id scope_id : String) : String :=
  "mem:ws:" ++ tenant_id ++ ":" ++ scope_id


/-- The fixed prefix of the SCAN pattern `mem:sc:{tenant}:{scope}:*`
(redis_cache.py lines 73 and 126). -/
def search_cache_pat (tenant_id scope_id : String) : String :=
  "mem:sc:" ++ tenant_id ++ ":" ++ scope_id ++ ":"


/-- A key matches the glob `mem:sc:{tenant}:{scope}:*` iff it starts with
the fixed prefix (tenant and scope ids contain no glob metacharacters). -/
def scMatches (tenant_id scope_id key : String) : Bool :=
  (search_cache_pat tenant_id scope_id).toList.isPrefixOf key.toList


structure CacheState where
  searchKeys : List String
  workingSets : List (String × List String)
  counters : List (String × ℕ)
deriving DecidableEq, Repr


/-- Model of `push_to_working_set` (redis_cache.py lines 49-59): LREM all occurrences
of the id, LPUSH it, LTRIM to `working_set_max`, refresh the TTL (TTL not
modelled). -/
def push_to_working_set (st : CacheState) (working_set_max : ℕ)
    (tenant_id scope_id memory_id : String) : CacheState :=
  let key := working_set_key tenant_id scope_id
  let old := ((st.workingSets.find? (fun p => p.1 == key)).map Prod.snd).getD []
  let new := (memory_id :: old.filter (fun x => x != memory_id)).take working_set_max
  { st with workingSets :=
      (key, new) :: st.workingSets.filter (fun p => p.1 != key) }


/-- Model of `invalidate_scope_cache` (redis_cache.py lines 122-133): SCAN with the
pattern `mem:sc:{tenant}:{scope}:*` and DELETE every match — i.e. remove
exactly the matching keys. -/
def invalidate_scope_cache (st : CacheState) (tenant_id scope_id : String) :
    CacheState :=
  { st with searchKeys :=
      st.searchKeys.filter (fun k => !scMatches tenant_id scope_id k) }


/-- Model of `_increment_counter` (redis_cache.py lines 137-141): INCR + 24h EXPIRE
(TTL not modelled). -/
def increment_counter (st : CacheState) (key : String) : CacheState :=
  let old := ((st.counters.find? (fun p => p.1 == key)).map Prod.snd).getD 0
  { st with counters :=
      (key, old + 1) :: st.counters.filter (fun p => p.1 != key) }


/-- Model of `record_write` (redis_cache.py lines 143-144). -/
def record_write (st : CacheState) (tenant_id : String) : CacheState :=
  increment_counter st ("mem:stats:writes:" ++ tenant_id)


/-- Model of `record_search` (redis_cache.py lines 146-147). -/
def record_search (st : CacheState) (tenant_id : String) : CacheState :=
  increment_counter st ("mem:stats:searches:" ++ tenant_id)


/-! ### The cache phase of each write path

Each function is the exact sequence of cache calls the corresponding code
path performs after its durable write succeeds. -/

/-- Model of `memory_write` endpoint, main.py lines 183-185: push to working set,
invalidate the scope search cache, record the write counter. -/
def memory_write_cache (st : CacheState) (working_set_max : ℕ)
    (tenant_id scope_id memory_id : String) : CacheState :=
  record_write
    (invalidate_scope_cache
      (push_to_working_set st working_set_max tenant_id scope_id memory_id)
      tenant_id scope_id)
    tenant_id


/-- Model of `memory_summarize_scope` endpoint, main.py line 478: invalidate the
scope search cache. -/
def summarize_scope_cache (st : CacheState) (tenant_id scope_id : String) :
    CacheState :=
  invalidate_scope_cache st tenant_id scope_id


/-- Gateway hook `on_message_received`, middleware.py lines 82-83: push to
working set and record the write counter — it performs no search-cache
invalidation. -/
def on_message_received_cache (st : CacheState) (working_set_max : ℕ)
    (tenant_id scope_id memory_id : String) : CacheState :=
  record_write
    (push_to_working_set st working_set_max tenant_id scope_id memory_id)
    tenant_id


/-- Gateway hook `on_task_completed`, middleware.py lines 150-152: push,
invalidate, record. -/
def on_task_completed_cache (st : CacheState) (working_set_max : ℕ)
    (tenant_id scope_id memory_id : String) : CacheState :=
  record_write
    (invalidate_scope_cache
      (push_to_working_set st working_set_max tenant_id scope_id memory_id)
      tenant_id scope_id)
    tenant_id


/-! ## HTTP endpoints (main.py)

The `await`ed cache operations can raise; `main.py` wraps none of them in
`try`/`except`, so a raised cache error propagates out of the handler (an
unhandled exception for FastAPI).  Each cache call's outcome is passed in
as an `Except CacheErr Unit` parameter; the handler is the monadic
composition the code performs. -/

inductive CacheErr
  | connection
deriving DecidableEq, Repr


inductive EndpointError
  /-- an explicit `HTTPException(status_code)` -/
  | httpError (status : ℕ)
  /-- a database error escaping the handler -/
  | dbError (e : DbError)
  /-- a cache error escaping the handler -/
  | cacheError (e : CacheErr)
deriving DecidableEq, Repr


/-- The `MemoryOut` response model (models.py), as built by `memory_write`
(main.py lines 187-197). -/
structure MemoryOutM where
  id : String
  kind : String
  title : Option String
  content : String
  tags : List String
  source : Option String
  author_agent_id : Option String
  created_at : ℕ
  updated_at : Option ℕ
  score : Option ℚ
deriving DecidableEq, Repr


def memoryOutOfRow (r : EntryRow) : MemoryOutM where
  id := r.id
  kind := r.kind
  title := r.title
  content := r.content
  tags := r.tags
  source := r.source
  author_agent_id := r.author_agent_id
  created_at := r.created_at
  updated_at := some r.updated_at
  score := none


/-- The `/tools/memory.write` handler (main.py lines 141-197): ensure
tenant, resolve scope, compute the content hash, embed
`f"{title or ''} {content}"`, write to Postgres, then — with no exception
handler around them — push to the working set, invalidate the scope search
cache and record the write counter.  `pushOutcome`, `invalidateOutcome`
and `recordOutcome` are the outcomes of those three awaited cache calls. -/
def memory_write_endpoint (db : Db) (now : ℕ) (sha : String → String)
    (embed : String → List ℚ) (tenant_id : String) (scope : ScopeIn)
    (kind : String) (title : Option String) (content : String)
    (tags : List String) (source author_agent_id tool_name : Option String)
    (pushOutcome invalidateOutcome recordOutcome : Except CacheErr Unit) :
    Except EndpointError (Db × MemoryOutM) :=
  let db := ensure_tenant db tenant_id
  let res := get_or_create_scope db sha tenant_id scope
  let db := res.1
  let scope_id := res.2
  let content_hash := compute_content_hash sha kind title content
  let embedding := embed (title.getD "" ++ " " ++ content)
  match write_memory db now tenant_id scope_id kind title content tags source
      author_agent_id tool_name content_hash embedding with
  | .error e => .error (.dbError e)
  | .ok (_, none) => .error (.httpError 500)
  | .ok (db', some row) =>
    match pushOutcome with
    | .error e => .error (.cacheError e)
    | .ok _ =>
      match invalidateOutcome with
      | .error e => .error (.cacheError e)
      | .ok _ =>
        match recordOutcome with
        | .error e => .error (.cacheError e)
        | .ok _ => .ok (db', memoryOutOfRow row)


/-- The hybrid-search call as `/tools/memory.search` performs it
(main.py lines 211-254, cache-miss path): the scope id passed to
`search_memory` is derived from the tenant and the request's
`scope_filter`. -/
def hybrid_search_for (db : Db) (dist : List ℚ → List ℚ → ℚ)
    (sim : String → String → ℚ) (sha : String → String) (tenant_id : String)
    (scope_filter : ScopeIn) (query_embedding : List ℚ) (query_text : String)
    (top_k : ℕ) (kinds tags : Option (List String)) (ts te : Option ℕ) :
    List (EntryRow × ℚ) :=
  search_memory db dist sim tenant_id (make_scope_id sha tenant_id scope_filter)
    query_embedding query_text top_k kinds tags ts te


/-- The `/tools/memory.search` handler (main.py lines 203-282).
`probeOutcome` is the awaited `get_cached_search` call (a hit carries the
deserialised rows); `fillOutcome` and `recordOutcome` are the awaited
`set_cached_search` and `record_search` calls, again unprotected by any
exception handler. -/
def memory_search_endpoint (db : Db) (dist : List ℚ → List ℚ → ℚ)
    (sim : String → String → ℚ) (sha : String → String)
    (embed : String → List ℚ) (tenant_id : String) (scope_filter : ScopeIn)
    (query : String) (top_k : ℕ) (kinds tags : Option (List String))
    (ts te : Option ℕ)
    (probeOutcome : Except CacheErr (Option (List (EntryRow × ℚ))))
    (fillOutcome recordOutcome : Except CacheErr Unit) :
    Except EndpointError (List (EntryRow × ℚ)) :=
  match probeOutcome with
  | .error e => .error (.cacheError e)
  | .ok (some cached) => .ok cached
  | .ok none =>
    let rows := hybrid_search_for db dist sim sha tenant_id scope_filter
      (embed query) query top_k kinds tags ts te
    match fillOutcome with
    | .error e => .error (.cacheError e)
    | .ok _ =>
      match recordOutcome with
      | .error e => .error (.cacheError e)
      | .ok _ => .ok rows


/-- The `/tools/memory.get` response (main.py lines 288-348): the entry is
fetched tenant-scoped; attachments are fetched tenant-scoped; the link
lists are fetched by memory id only. -/
structure MemoryGetOutM where
  entry : EntryRow
  attachments : List AttachmentRow
  linked_from : List LinkRow
  linked_to : List LinkRow
deriving DecidableEq, Repr


/-- The `/tools/memory.get` handler (main.py lines 288-348); `none` models
the 404 path. -/
def memory_get_endpoint (db : Db) (tenant_id memory_id : String) :
    Option MemoryGetOutM :=
  (get_memory db tenant_id memory_id).map (fun row =>
    { entry := row,
      attachments := get_attachments db tenant_id memory_id,
      linked_from := get_links_from db memory_id,
      linked_to := get_links_to db memory_id })


/-- The row written by the `INSERT ... VALUES` of `write_memory` when no
arbiter-tuple conflict occurs: `content` is the normalised content, the
timestamp columns take their `now()` defaults. -/
def insertedRow (now : ℕ) (tenant_id scope_id kind : String)
    (title : Option String) (content : String) (tags : List String)
    (source author_agent_id tool_name : Option String) (content_hash : String) :
    EntryRow where
  id := make_memory_id content_hash
  tenant_id := tenant_id
  scope_id := scope_id
  kind := kind
  title := title
  content := pyNormalize content
  tags := tags
  source := source
  author_agent_id := author_agent_id
  tool_name := tool_name
  content_hash := content_hash
  created_at := now
  updated_at := now


/-- The entry row produced by the concrete first write of the C1 witness. -/
def c1Row : EntryRow where
  id := "mem_hash1"
  tenant_id := "t1"
  scope_id := "sc_a"
  kind := "decision"
  title := some "use pgvector"
  content := "Decided to use pgvector."
  tags := ["architecture"]
  source := some "gateway"
  author_agent_id := none
  tool_name := none
  content_hash := "hash1"
  created_at := 3
  updated_at := 3


/-- The database after the concrete first write of the C1 witness. -/
def c1Db : Db where
  tenants := []
  scopes := []
  entries := [c1Row]
  embeddings := [⟨"mem_hash1", []⟩]
  links := []
  attachments := []


/-- The scope filter of the C4 witness. -/
def c4Scope : ScopeIn where
  channel_id := some "c1"
  conversation_id := none
  project_id := none
  task_id := none


/-- The single entry of the C4 witness database: it lives in the scope
derived from tenant "t" and `c4Scope` under the hash stub
`fun _ => "h"`. -/
def c4Row : EntryRow where
  id := "mem_a"
  tenant_id := "t"
  scope_id := "sc_h"
  kind := "task_outcome"
  title := none
  content := "x"
  tags := []
  source := none
  author_agent_id := none
  tool_name := none
  content_hash := "a"
  created_at := 1
  updated_at := 1


def c4Db : Db where
  tenants := ["t"]
  scopes := []
  entries := [c4Row]
  embeddings := [⟨"mem_a", []⟩]
  links := []
  attachments := []


/-- First entry of the C8 counterexample database: the older row
(created_at = 1), stored first. -/
def c8Row1 : EntryRow where
  id := "mem_a"
  tenant_id := "t"
  scope_id := "s"
  kind := "chat_turn"
  title := none
  content := "x"
  tags := []
  source := none
  author_agent_id := none
  tool_name := none
  content_hash := "a"
  created_at := 1
  updated_at := 1


/-- Second entry of the C8 counterexample database: the newer row
(created_at = 2), stored second. -/
def c8Row2 : EntryRow where
  id := "mem_b"
  tenant_id := "t"
  scope_id := "s"
  kind := "chat_turn"
  title := none
  content := "y"
  tags := []
  source := none
  author_agent_id := none
  tool_name := none
  content_hash := "b"
  created_at := 2
  updated_at := 2


def c8Db : Db where
  tenants := ["t"]
  scopes := []
  entries := [c8Row1, c8Row2]
  embeddings := [⟨"mem_a", []⟩, ⟨"mem_b", []⟩]
  links := []
  attachments := []


/-- C5 database: tenant "tA" owns entry `mem_a`, tenant "tB" owns `mem_b`,
and a link row belonging to tenant "tB" points from `mem_b` to `mem_a`
(such a row is insertable through `create_link`, e.g. by the gateway hook's
unvalidated artifact ids). -/
def c5RowA : EntryRow where
  id := "mem_a"
  tenant_id := "tA"
  scope_id := "sA"
  kind := "task_outcome"
  title := none
  content := "a"
  tags := []
  source := none
  author_agent_id := none
  tool_name := none
  content_hash := "a"
  created_at := 1
  updated_at := 1


def c5RowB : EntryRow where
  id := "mem_b"
  tenant_id := "tB"
  scope_id := "sB"
  kind := "task_outcome"
  title := none
  content := "b"
  tags := []
  source := none
  author_agent_id := none
  tool_name := none
  content_hash := "b"
  created_at := 2
  updated_at := 2


def c5Db : Db where
  tenants := ["tA", "tB"]
  scopes := []
  entries := [c5RowA, c5RowB]
  embeddings := [⟨"mem_a", []⟩, ⟨"mem_b", []⟩]
  links := [⟨1, "tB", "mem_b", "mem_a", "related", 3⟩]
  attachments := []


/-- C7 counterexample cache state: one live search-cache key for
(tenant "t", scope "s"). -/
def c7St : CacheState where
  searchKeys := ["mem:sc:t:s:abc"]
  workingSets := []
  counters := []


/-- The empty scope used in the C6 theorems. -/
def c6Scope : ScopeIn where
  channel_id := none
  conversation_id := none
  project_id := none
  task_id := none


/-! ### Run-structure equations for the two loops -/

theorem pySplit_nil : pySplit [] = [] := rfl


theorem pySplit_ws {c : Char} (h : isWS c = true) (cs : List Char) :
    pySplit (c :: cs) = pySplit cs := by
  simp [pySplit, pySplitGo, h, List.isEmpty]


theorem pySplitGo_acc (acc : List Char) (h : acc ≠ []) :
    ∀ cs : List Char,
      pySplitGo acc cs
        = (acc.reverse ++ cs.takeWhile (fun d => !isWS d))
            :: pySplit (cs.dropWhile (fun d => !isWS d))
  | [] => by
    simp [pySplitGo, List.isEmpty_iff, h, pySplit, pySplitGo]
  | c :: cs => by
    by_cases hc : isWS c = true
    · have hemp : acc.isEmpty = false := by
        simp [List.isEmpty_iff, h]
      simp [pySplitGo, hc, hemp, List.takeWhile, List.dropWhile, pySplit]
    · have ih := pySplitGo_acc (c :: acc) (by simp) cs
      simp only [pySplitGo, hc, if_false, Bool.false_eq_true]
      rw [ih]
      simp [List.takeWhile, List.dropWhile, hc]


theorem pySplit_word {c : Char} (h : isWS c = false) (cs : List Char) :
    pySplit (c :: cs)
      = (c :: cs.takeWhile (fun d => !isWS d))
          :: pySplit (cs.dropWhile (fun d => !isWS d)) := by
  have := pySplitGo_acc [c] (by simp) cs
  simp only [pySplit, pySplitGo, h, Bool.false_eq_true, if_false]
  simpa using this


theorem collapseGo_true_eq (cs : List Char) :
    collapseGo true cs = collapseGo false (cs.dropWhile isWS) := by
  induction cs with
  | nil => simp [collapseGo]
  | cons d ds ih =>
    by_cases hd : isWS d = true
    · simp [collapseGo, hd, List.dropWhile, ih]
    · simp [collapseGo, hd, List.dropWhile]


theorem collapseWS_nil : collapseWS [] = [] := rfl


theorem collapseWS_ws {c : Char} (h : isWS c = true) (cs : List Char) :
    collapseWS (c :: cs) = ' ' :: collapseWS (cs.dropWhile isWS) := by
  simp [collapseWS, collapseGo, h, collapseGo_true_eq]


theorem collapseWS_word {c : Char} (h : isWS c = false) (cs : List Char) :
    collapseWS (c :: cs) = c :: collapseWS cs := by
  simp [collapseWS, collapseGo, h]


theorem noLead_dropWhile (l : List Char) : NoLead (l.dropWhile isWS) := by
  induction l with
  | nil => intro c hc; simp [List.dropWhile] at hc
  | cons x xs ih =>
    cases hx : isWS x with
    | true => simpa [List.dropWhile, hx] using ih
    | false =>
      intro c hc
      simp [List.dropWhile, hx] at hc
      rw [← hc]
      exact hx


theorem noTrail_of_suffix {l₁ l₂ : List Char} (hs : l₁ <:+ l₂) (_hne : l₁ ≠ [])
    (h : NoTrail l₂) : NoTrail l₁ := by
  intro c hc
  obtain ⟨t, rfl⟩ := hs
  apply h
  rw [List.getLast?_append, hc]
  rfl


theorem noTrail_tail {c : Char} {cs : List Char} (h : NoTrail (c :: cs))
    (hne : cs ≠ []) : NoTrail cs :=
  noTrail_of_suffix ⟨[c], rfl⟩ hne h


theorem length_dropWhile_le (p : Char → Bool) (l : List Char) :
    (l.dropWhile p).length ≤ l.length := by
  induction l with
  | nil => simp [List.dropWhile]
  | cons x xs ih =>
    by_cases hx : p x = true
    · simp only [List.dropWhile, hx]
      exact Nat.le_succ_of_le ih
    · simp [List.dropWhile, hx]


theorem pySplit_dropWhile (l : List Char) :
    pySplit (l.dropWhile isWS) = pySplit l := by
  induction l with
  | nil => rfl
  | cons x xs ih =>
    by_cases hx : isWS x = true
    · rw [List.dropWhile_cons_of_pos hx, ih, pySplit_ws hx]
    · rw [List.dropWhile_cons_of_neg (by simp [hx])]


theorem joinSp_cons_cons (c : Char) (w : List Char) (rest : List (List Char)) :
    joinSp ((c :: w) :: rest) = c :: joinSp (w :: rest) := by
  cases rest <;> simp [joinSp]


/-- Core refinement: on a list with no leading and no trailing whitespace,
collapsing whitespace runs agrees with splitting into words and re-joining
with single spaces. -/
theorem collapseWS_eq_joinSp_pySplit :
    ∀ (n : ℕ) (l : List Char), l.length ≤ n → NoLead l → NoTrail l →
      collapseWS l = joinSp (pySplit l)
  | _, [], _, _, _ => rfl
  | 0, c :: cs, hn, _, _ => by simp at hn
  | n + 1, c :: cs, hn, h1, h2 => by
    have hc : isWS c = false := h1 c rfl
    match cs with
    | [] =>
      rw [collapseWS_word hc, collapseWS_nil, pySplit_word hc]
      simp [pySplit, pySplitGo, joinSp, List.takeWhile, List.dropWhile]
    | d :: ds =>
      cases hd : isWS d with
      | true =>
        -- a whitespace run follows the word's last character `c`
        have hdw : List.dropWhile (fun x => !isWS x) (d :: ds) = d :: ds := by
          rw [List.dropWhile_cons_of_neg (by simp [hd])]
        have htw : List.takeWhile (fun x => !isWS x) (d :: ds) = [] := by
          rw [List.takeWhile_cons_of_neg (by simp [hd])]
        have hene : ds.dropWhile isWS ≠ [] := by
          intro hnil
          have hall : ∀ x ∈ ds, isWS x = true := List.dropWhile_eq_nil_iff.mp hnil
          have hg : (d :: ds).getLast (by simp) ∈ d :: ds := List.getLast_mem _
          have hgw : isWS ((d :: ds).getLast (by simp)) = true := by
            rcases List.mem_cons.mp hg with h | h
            · rw [h]; exact hd
            · exact hall _ h
          have hlast : (c :: d :: ds).getLast? = some ((d :: ds).getLast (by simp)) := by
            rw [List.getLast?_cons_cons, List.getLast?_eq_getLast]
          rw [h2 _ hlast] at hgw
          exact Bool.false_ne_true hgw
        have hlead : NoLead (ds.dropWhile isWS) := noLead_dropWhile ds
        have htrail : NoTrail (ds.dropWhile isWS) := by
          refine noTrail_of_suffix ?_ hene h2
          exact (List.dropWhile_suffix isWS).trans ⟨[c, d], rfl⟩
        have hlen : (ds.dropWhile isWS).length ≤ n := by
          have h1' := length_dropWhile_le isWS ds
          simp only [List.length_cons] at hn
          omega
        have ih := collapseWS_eq_joinSp_pySplit n (ds.dropWhile isWS) hlen hlead htrail
        rw [collapseWS_word hc, collapseWS_ws hd, ih]
        rw [pySplit_word hc, htw, hdw, pySplit_ws hd, ← pySplit_dropWhile ds]
        -- joinSp ([c] :: pySplit (ds.dropWhile isWS)) = c :: ' ' :: joinSp (...)
        obtain ⟨x, xs, hx⟩ : ∃ x xs, ds.dropWhile isWS = x :: xs := by
          cases hds : ds.dropWhile isWS with
          | nil => exact absurd hds hene
          | cons x xs => exact ⟨x, xs, rfl⟩
        have hxw : isWS x = false := hlead x (by rw [hx]; rfl)
        rw [hx, pySplit_word hxw]
        simp [joinSp]
      | false =>
        -- the word continues with `d`
        have htrail : NoTrail (d :: ds) := noTrail_tail h2 (by simp)
        have hlead : NoLead (d :: ds) := by
          intro x hxeq
          simp only [List.head?] at hxeq
          cases hxeq
          exact hd
        have hlen : (d :: ds).length ≤ n := by
          simp only [List.length_cons] at hn ⊢
          omega
        have ih := collapseWS_eq_joinSp_pySplit n (d :: ds) hlen hlead htrail
        rw [collapseWS_word hc, ih, pySplit_word hc, pySplit_word hd,
          List.takeWhile_cons_of_pos (by simp [hd]),
          List.dropWhile_cons_of_pos (by simp [hd])]
        simp [joinSp_cons_cons]


theorem noLead_pyStrip (l : List Char) : NoLead (pyStrip l) := by
  intro c hc
  set m := l.dropWhile isWS with hm
  have hpre : pyStrip l <+: m := by
    rw [← List.reverse_suffix]
    simpa [pyStrip, hm] using List.dropWhile_suffix (l := m.reverse) isWS
  obtain ⟨t, ht⟩ := hpre
  cases hst : pyStrip l with
  | nil => rw [hst] at hc; simp at hc
  | cons x xs =>
    rw [hst] at hc ht
    simp only [List.head?] at hc
    cases hc
    have : m.head? = some c := by rw [← ht]; rfl
    exact noLead_dropWhile l c this


theorem noTrail_pyStrip (l : List Char) : NoTrail (pyStrip l) := by
  intro c hc
  have : (pyStrip l).reverse.head? = some c := by
    rw [List.head?_reverse]; exact hc
  have hlead : NoLead ((l.dropWhile isWS).reverse.dropWhile isWS) :=
    noLead_dropWhile _
  simp only [pyStrip, List.reverse_reverse] at this
  exact hlead c this


/-- The code's `" ".join(content.strip().split())` computes exactly the
spec's "trim outer whitespace, collapse any run of whitespace to a single
space". -/
theorem pyNormalizeL_eq_specNormalizeL (l : List Char) :
    pyNormalizeL l = specNormalizeL l := by
  rw [pyNormalizeL, specNormalizeL,
    collapseWS_eq_joinSp_pySplit (pyStrip l).length (pyStrip l) le_rfl
      (noLead_pyStrip l) (noTrail_pyStrip l)]


theorem pyNormalize_eq_specNormalize (s : String) :
    pyNormalize s = specNormalize s := by
  rw [pyNormalize, specNormalize, pyNormalizeL_eq_specNormalizeL]


theorem mem_insertDescBy {α : Type} (key : α → ℚ) (x : α) (l : List α) (a : α) :
    a ∈ insertDescBy key x l ↔ a = x ∨ a ∈ l := by
  induction l with
  | nil => simp [insertDescBy]
  | cons y ys ih =>
    by_cases h : key y < key x
    · simp [insertDescBy, h]
    · simp only [insertDescBy, if_neg h, List.mem_cons, ih]
      tauto


theorem mem_sortDescBy_aux {α : Type} (key : α → ℚ) (l acc : List α) (a : α) :
    a ∈ l.foldl (fun acc x => insertDescBy key x acc) acc ↔ a ∈ acc ∨ a ∈ l := by
  induction l generalizing acc with
  | nil => simp
  | cons x xs ih =>
    simp only [List.foldl_cons, ih, mem_insertDescBy, List.mem_cons]
    tauto


theorem mem_sortDescBy {α : Type} (key : α → ℚ) (l : List α) (a : α) :
    a ∈ sortDescBy key l ↔ a ∈ l := by
  simp [sortDescBy, mem_sortDescBy_aux]


theorem mem_sortAscBy {α : Type} (key : α → ℚ) (l : List α) (a : α) :
    a ∈ sortAscBy key l ↔ a ∈ l := mem_sortDescBy _ l a


theorem sortedDesc_insertDescBy {α : Type} (key : α → ℚ) (x : α) (l : List α)
    (h : SortedDesc key l) : SortedDesc key (insertDescBy key x l) := by
  induction l with
  | nil => simp [insertDescBy, SortedDesc]
  | cons y ys ih =>
    rcases List.pairwise_cons.mp h with ⟨hy, hys⟩
    by_cases hk : key y < key x
    · simp only [insertDescBy, if_pos hk]
      refine List.pairwise_cons.mpr ⟨?_, h⟩
      intro b hb
      rcases List.mem_cons.mp hb with rfl | hb
      · exact le_of_lt hk
      · exact le_trans (hy b hb) (le_of_lt hk)
    · simp only [insertDescBy, if_neg hk]
      refine List.pairwise_cons.mpr ⟨?_, ih hys⟩
      intro b hb
      rcases (mem_insertDescBy key x ys b).mp hb with rfl | hb
      · exact le_of_not_lt hk
      · exact hy b hb


theorem sortedDesc_sortDescBy_aux {α : Type} (key : α → ℚ) (l acc : List α)
    (h : SortedDesc key acc) :
    SortedDesc key (l.foldl (fun acc x => insertDescBy key x acc) acc) := by
  induction l generalizing acc with
  | nil => simpa using h
  | cons x xs ih =>
    simp only [List.foldl_cons]
    exact ih _ (sortedDesc_insertDescBy key x acc h)


theorem sortedDesc_sortDescBy {α : Type} (key : α → ℚ) (l : List α) :
    SortedDesc key (sortDescBy key l) :=
  sortedDesc_sortDescBy_aux key l [] (List.Pairwise.nil)


/-! ## Helper lemmas about the write path -/

theorem entries_upsert_embedding (db : Db) (mem_id : String) (emb : List ℚ) :
    (upsert_embedding db mem_id emb).entries = db.entries := by
  unfold upsert_embedding
  split <;> rfl


theorem updTuple_id (t s k h : String) (now : ℕ) (r : EntryRow) :
    (updTuple t s k h now r).id = r.id := by
  unfold updTuple; split <;> rfl


theorem updTuple_tenant (t s k h : String) (now : ℕ) (r : EntryRow) :
    (updTuple t s k h now r).tenant_id = r.tenant_id := by
  unfold updTuple; split <;> rfl


theorem sameTuple_updTuple (t s k h : String) (now : ℕ) (r : EntryRow) :
    sameTuple t s k h (updTuple t s k h now r) = sameTuple t s k h r := by
  unfold updTuple; split <;> simp_all [sameTuple]


/-- After any successful `write_memory`, the returned row option is the
re-select by (id, tenant), and a row matching the arbiter tuple exists. -/
theorem write_memory_ok_shape
    (db : Db) (now : ℕ) (t s k : String) (ti : Option String) (c : String)
    (tg : List String) (so au tn : Option String) (h : String) (emb : List ℚ)
    (db1 : Db) (or1 : Option EntryRow)
    (hw : write_memory db now t s k ti c tg so au tn h emb = .ok (db1, or1)) :
    or1 = get_memory db1 t (make_memory_id h)
    ∧ (db1.entries.find? (sameTuple t s k h)).isSome = true := by
  unfold write_memory at hw
  split at hw
  · rename_i r0 heq
    simp only [Except.ok.injEq, Prod.mk.injEq] at hw
    obtain ⟨hdb, hor⟩ := hw
    subst hdb
    refine ⟨hor.symm, ?_⟩
    rw [entries_upsert_embedding]
    show ((db.entries.map (updTuple t s k h now)).find? (sameTuple t s k h)).isSome = true
    rw [List.find?_map]
    have hcomp : (sameTuple t s k h) ∘ (updTuple t s k h now) = sameTuple t s k h :=
      funext (fun r => sameTuple_updTuple t s k h now r)
    rw [hcomp, heq]
    rfl
  · rename_i heq
    dsimp only at hw
    split at hw
    · simp at hw
    · rename_i hany
      simp only [Except.ok.injEq, Prod.mk.injEq] at hw
      obtain ⟨hdb, hor⟩ := hw
      subst hdb
      refine ⟨hor.symm, ?_⟩
      rw [entries_upsert_embedding]
      show ((db.entries ++ [_]).find? (sameTuple t s k h)).isSome = true
      rw [List.find?_append, heq]
      simp [List.find?_cons, sameTuple]


/-- Claim C1: the write path is idempotent under an identical request.  If
a `write_memory` with parameters W succeeded and returned a row, re-issuing
W returns a row with the same id, the table keeps exactly the same number
of entry rows (no second row is created), and the new table is the old one
with `updated_at := now2` applied to the rows matching the arbiter tuple
(`updTuple` changes no other stored field). -/
theorem write_dedupe_idempotent
    (db : Db) (now1 now2 : ℕ) (t s k : String) (ti : Option String)
    (c : String) (tg : List String) (so au tn : Option String)
    (h : String) (emb : List ℚ) (db1 : Db) (r1 : EntryRow)
    (hw : write_memory db now1 t s k ti c tg so au tn h emb
      = .ok (db1, some r1)) :
    write_memory db1 now2 t s k ti c tg so au tn h emb
      = .ok (upsert_embedding
          { db1 with entries := db1.entries.map (updTuple t s k h now2) }
          (make_memory_id h) emb,
        some (updTuple t s k h now2 r1))
    ∧ (updTuple t s k h now2 r1).id = r1.id
    ∧ (db1.entries.map (updTuple t s k h now2)).length = db1.entries.length := by
  obtain ⟨hor, hsome⟩ :=
    write_memory_ok_shape db now1 t s k ti c tg so au tn h emb db1 (some r1) hw
  obtain ⟨r0, hr0⟩ := Option.isSome_iff_exists.mp hsome
  have hget1 : db1.entries.find?
      (fun r => r.id == make_memory_id h && r.tenant_id == t) = some r1 := by
    have := hor.symm
    simpa [get_memory] using this
  refine ⟨?_, updTuple_id t s k h now2 r1, List.length_map _ _⟩
  unfold write_memory
  rw [hr0]
  simp only [Except.ok.injEq, Prod.mk.injEq]
  refine ⟨trivial, ?_⟩
  simp only [get_memory]
  rw [entries_upsert_embedding, List.find?_map]
  have hcomp : ((fun r : EntryRow => r.id == make_memory_id h && r.tenant_id == t)
      ∘ (updTuple t s k h now2))
      = (fun r : EntryRow => r.id == make_memory_id h && r.tenant_id == t) := by
    funext r
    simp [Function.comp, updTuple_id, updTuple_tenant]
  rw [hcomp, hget1]
  rfl


/-- A fresh `write_memory` (no arbiter-tuple row, no primary-key row)
appends exactly `insertedRow` and returns it. -/
theorem write_memory_fresh
    (db : Db) (now : ℕ) (t s k : String) (ti : Option String) (c : String)
    (tg : List String) (so au tn : Option String) (h : String) (emb : List ℚ)
    (h1 : db.entries.find? (sameTuple t s k h) = none)
    (h2 : db.entries.any (fun r => r.id == make_memory_id h) = false) :
    write_memory db now t s k ti c tg so au tn h emb
      = .ok (upsert_embedding
          { db with entries := db.entries ++ [insertedRow now t s k ti c tg so au tn h] }
          (make_memory_id h) emb,
        some (insertedRow now t s k ti c tg so au tn h)) := by
  have hq : db.entries.find?
      (fun r => r.id == make_memory_id h && r.tenant_id == t) = none := by
    rw [List.find?_eq_none]
    intro x hx
    have hx' : ¬ (x.id == make_memory_id h) = true := by
      intro hcontra
      have hall : db.entries.any (fun r => r.id == make_memory_id h) = true :=
        List.any_eq_true.mpr ⟨x, hx, hcontra⟩
      rw [h2] at hall
      exact Bool.false_ne_true hall
    simp only [Bool.and_eq_true, not_and]
    intro hxx
    exact absurd hxx hx'
  unfold write_memory
  dsimp only
  rw [h1]
  dsimp only
  rw [h2]
  simp only [Bool.false_eq_true, if_false, Except.ok.injEq, Prod.mk.injEq]
  constructor
  · rfl
  · rw [get_memory, entries_upsert_embedding]
    rw [List.find?_append, hq]
    simp [insertedRow]


/-- A `write_memory` whose arbiter tuple matches no row but whose derived
primary key collides raises the uniqueness violation. -/
theorem write_memory_pk_conflict
    (db : Db) (now : ℕ) (t s k : String) (ti : Option String) (c : String)
    (tg : List String) (so au tn : Option String) (h : String) (emb : List ℚ)
    (h1 : db.entries.find? (sameTuple t s k h) = none)
    (h2 : db.entries.any (fun r => r.id == make_memory_id h) = true) :
    write_memory db now t s k ti c tg so au tn h emb
      = .error .uniqueViolation := by
  unfold write_memory
  dsimp only
  rw [h1]
  dsimp only
  rw [h2]
  simp


/-- Claim C1 witness: the concrete scenario-1 write issued into the empty
database and then re-issued: the second call returns the same id, keeps a
single entry row and only bumps `updated_at`. -/
theorem write_dedupe_idempotent_witness :
    write_memory c1Db 7 "t1" "sc_a" "decision" (some "use pgvector")
      "Decided  to use  pgvector." ["architecture"] (some "gateway") none none
      "hash1" []
      = .ok (upsert_embedding
          { c1Db with entries :=
              c1Db.entries.map (updTuple "t1" "sc_a" "decision" "hash1" 7) }
          (make_memory_id "hash1") [],
        some (updTuple "t1" "sc_a" "decision" "hash1" 7 c1Row))
    ∧ (updTuple "t1" "sc_a" "decision" "hash1" 7 c1Row).id = c1Row.id
    ∧ (c1Db.entries.map (updTuple "t1" "sc_a" "decision" "hash1" 7)).length
        = c1Db.entries.length :=
  write_dedupe_idempotent Db.empty 3 7 "t1" "sc_a" "decision"
    (some "use pgvector") "Decided  to use  pgvector." ["architecture"]
    (some "gateway") none none "hash1" [] c1Db c1Row (by decide)


/-- Claim C2: `_make_memory_id` is a function of the content hash alone, so
two writes of identical (kind, title, content) under two distinct
(tenant, scope) pairs derive the same primary-key id; the second write's
arbiter tuple (tenant_id, scope_id, kind, content_hash) matches no row, the
plain insert collides on the primary key, and the write raises a uniqueness
error instead of storing a second entry. -/
theorem cross_tenant_write_unique_violation
    (db : Db) (now1 now2 : ℕ) (sha : String → String) (t1 s1 t2 s2 k : String)
    (ti : Option String) (c : String) (tg1 tg2 : List String)
    (so1 au1 tn1 so2 au2 tn2 : Option String) (emb1 emb2 : List ℚ)
    (hne : t1 ≠ t2 ∨ s1 ≠ s2)
    (h1 : db.entries.find?
      (sameTuple t1 s1 k (compute_content_hash sha k ti c)) = none)
    (h2 : db.entries.any
      (fun r => r.id == make_memory_id (compute_content_hash sha k ti c)) = false)
    (h3 : db.entries.find?
      (sameTuple t2 s2 k (compute_content_hash sha k ti c)) = none) :
    write_memory db now1 t1 s1 k ti c tg1 so1 au1 tn1
        (compute_content_hash sha k ti c) emb1
      = .ok (upsert_embedding
          { db with entries := db.entries
              ++ [insertedRow now1 t1 s1 k ti c tg1 so1 au1 tn1
                  (compute_content_hash sha k ti c)] }
          (make_memory_id (compute_content_hash sha k ti c)) emb1,
        some (insertedRow now1 t1 s1 k ti c tg1 so1 au1 tn1
          (compute_content_hash sha k ti c)))
    ∧ (insertedRow now1 t1 s1 k ti c tg1 so1 au1 tn1
        (compute_content_hash sha k ti c)).id
        = make_memory_id (compute_content_hash sha k ti c)
    ∧ write_memory (upsert_embedding
          { db with entries := db.entries
              ++ [insertedRow now1 t1 s1 k ti c tg1 so1 au1 tn1
                  (compute_content_hash sha k ti c)] }
          (make_memory_id (compute_content_hash sha k ti c)) emb1)
        now2 t2 s2 k ti c tg2 so2 au2 tn2
        (compute_content_hash sha k ti c) emb2 = .error .uniqueViolation := by
  refine ⟨write_memory_fresh db now1 t1 s1 k ti c tg1 so1 au1 tn1
    (compute_content_hash sha k ti c) emb1 h1 h2, rfl, ?_⟩
  apply write_memory_pk_conflict
  · rw [entries_upsert_embedding, List.find?_append, h3]
    have : sameTuple t2 s2 k (compute_content_hash sha k ti c)
        (insertedRow now1 t1 s1 k ti c tg1 so1 au1 tn1
          (compute_content_hash sha k ti c)) = false := by
      rcases hne with hne | hne
      · simp [sameTuple, insertedRow, beq_eq_false_iff_ne, hne]
      · simp [sameTuple, insertedRow, beq_eq_false_iff_ne, hne]
    simp [List.find?_cons, this]
  · rw [entries_upsert_embedding, List.any_append]
    simp [insertedRow]


/-- Claim C2 witness: the same (kind, title, content) written under tenants
"tA" and "tB" from the empty database; the second write raises the
uniqueness violation. -/
theorem cross_tenant_write_unique_violation_witness :
    write_memory Db.empty 1 "tA" "sc_1" "decision" none "dup" []
        none none none (compute_content_hash (fun x => x) "decision" none "dup")
        []
      = .ok (upsert_embedding
          { Db.empty with entries := Db.empty.entries
              ++ [insertedRow 1 "tA" "sc_1" "decision" none "dup" []
                  none none none
                  (compute_content_hash (fun x => x) "decision" none "dup")] }
          (make_memory_id (compute_content_hash (fun x => x) "decision" none "dup"))
          [],
        some (insertedRow 1 "tA" "sc_1" "decision" none "dup" [] none none none
          (compute_content_hash (fun x => x) "decision" none "dup")))
    ∧ (insertedRow 1 "tA" "sc_1" "decision" none "dup" [] none none none
        (compute_content_hash (fun x => x) "decision" none "dup")).id
        = make_memory_id (compute_content_hash (fun x => x) "decision" none "dup")
    ∧ write_memory (upsert_embedding
          { Db.empty with entries := Db.empty.entries
              ++ [insertedRow 1 "tA" "sc_1" "decision" none "dup" []
                  none none none
                  (compute_content_hash (fun x => x) "decision" none "dup")] }
          (make_memory_id (compute_content_hash (fun x => x) "decision" none "dup"))
          []) 2 "tB" "sc_2" "decision" none "dup" [] none none none
        (compute_content_hash (fun x => x) "decision" none "dup") []
        = .error .uniqueViolation :=
  cross_tenant_write_unique_violation Db.empty 1 2 (fun x => x) "tA" "sc_1"
    "tB" "sc_2" "decision" none "dup" [] [] none none none none none none [] []
    (Or.inl (by decide)) (by decide) (by decide) (by decide)


/-- Claim C3: the stored content hash is the (opaque) sha256, in lowercase
hex, of `kind ++ "|" ++ (title or "") ++ "|" ++ normalize(content)` with
the spec's `normalize` (trim outer whitespace, collapse whitespace runs to
single spaces); and the content bytes `write_memory` persists are exactly
that same `normalize(content)`. -/
theorem content_hash_and_persisted_content (sha : String → String) (k : String)
    (ti : Option String) (c : String) :
    compute_content_hash sha k ti c = spec_content_hash sha k ti c
    ∧ ∀ (db : Db) (now : ℕ) (t s : String) (tg : List String)
        (so au tn : Option String) (emb : List ℚ),
        db.entries.find? (sameTuple t s k (compute_content_hash sha k ti c)) = none →
        db.entries.any (fun r =>
          r.id == make_memory_id (compute_content_hash sha k ti c)) = false →
        write_memory db now t s k ti c tg so au tn
            (compute_content_hash sha k ti c) emb
          = .ok (upsert_embedding
              { db with entries := db.entries
                  ++ [insertedRow now t s k ti c tg so au tn
                      (compute_content_hash sha k ti c)] }
              (make_memory_id (compute_content_hash sha k ti c)) emb,
            some (insertedRow now t s k ti c tg so au tn
              (compute_content_hash sha k ti c)))
        ∧ (insertedRow now t s k ti c tg so au tn
            (compute_content_hash sha k ti c)).content = specNormalize c := by
  constructor
  · unfold compute_content_hash spec_content_hash
    rw [pyNormalize_eq_specNormalize]
  · intro db now t s tg so au tn emb hf ha
    exact ⟨write_memory_fresh db now t s k ti c tg so au tn
      (compute_content_hash sha k ti c) emb hf ha,
      by simp [insertedRow, pyNormalize_eq_specNormalize]⟩


/-- Claim C3 witness: concrete kind/title/content with whitespace to
normalise, written into the empty database. -/
theorem content_hash_and_persisted_content_witness :
    compute_content_hash (fun x => x) "chat_turn" (some "T") "  a \t b  "
      = spec_content_hash (fun x => x) "chat_turn" (some "T") "  a \t b  "
    ∧ (write_memory Db.empty 5 "t1" "sc_1" "chat_turn" (some "T")
          "  a \t b  " [] none none none
          (compute_content_hash (fun x => x) "chat_turn" (some "T") "  a \t b  ")
          []
        = .ok (upsert_embedding
            { Db.empty with entries := Db.empty.entries
                ++ [insertedRow 5 "t1" "sc_1" "chat_turn" (some "T")
                    "  a \t b  " [] none none none
                    (compute_content_hash (fun x => x) "chat_turn" (some "T")
                      "  a \t b  ")] }
            (make_memory_id
              (compute_content_hash (fun x => x) "chat_turn" (some "T")
                "  a \t b  ")) [],
          some (insertedRow 5 "t1" "sc_1" "chat_turn" (some "T")
            "  a \t b  " [] none none none
            (compute_content_hash (fun x => x) "chat_turn" (some "T") "  a \t b  ")))
      ∧ (insertedRow 5 "t1" "sc_1" "chat_turn" (some "T") "  a \t b  " []
          none none none
          (compute_content_hash (fun x => x) "chat_turn" (some "T") "  a \t b  ")).content
        = specNormalize "  a \t b  ") :=
  ⟨(content_hash_and_persisted_content (fun x => x) "chat_turn" (some "T")
      "  a \t b  ").1,
    (content_hash_and_persisted_content (fun x => x) "chat_turn" (some "T")
      "  a \t b  ").2 Db.empty 5 "t1" "sc_1" [] none none none []
      (by decide) (by decide)⟩


/-- Claim C4: every row returned by the hybrid search belongs to the
requesting tenant and to the scope id derived from (tenant, scope_filter),
whatever the optional kind/tag/time filters are. -/
theorem search_result_same_scope_tenant
    (db : Db) (dist : List ℚ → List ℚ → ℚ) (sim : String → String → ℚ)
    (sha : String → String) (t : String) (S : ScopeIn) (qemb : List ℚ)
    (qtext : String) (top_k : ℕ) (kinds tags : Option (List String))
    (ts te : Option ℕ) (p : EntryRow × ℚ)
    (hp : p ∈ hybrid_search_for db dist sim sha t S qemb qtext top_k kinds tags ts te) :
    p.1.tenant_id = t ∧ p.1.scope_id = make_scope_id sha t S := by
  unfold hybrid_search_for search_memory at hp
  dsimp only at hp
  have hp2 := (mem_sortDescBy _ _ _).mp (List.mem_of_mem_take hp)
  rcases List.mem_map.mp hp2 with ⟨q, hq, rfl⟩
  rcases List.mem_map.mp hq with ⟨w, hw, rfl⟩
  have hw2 := (mem_sortAscBy _ _ _).mp (List.mem_of_mem_take hw)
  rcases List.mem_filterMap.mp hw2 with ⟨r, hr, hfr⟩
  rcases Option.map_eq_some'.mp hfr with ⟨e, _, hew⟩
  rcases List.mem_filter.mp hr with ⟨_, hpred⟩
  simp only [matchesFilters, Bool.and_eq_true, beq_iff_eq] at hpred
  have : w.1 = r := by rw [← hew]
  rw [this]
  exact ⟨hpred.1.1.1.1.1, hpred.1.1.1.1.2⟩


/-- Claim C4 witness: a concrete search that returns a row; the returned
row's tenant and scope are the requested ones. -/
theorem search_result_same_scope_tenant_witness :
    ((c4Row, (0.75 : ℚ)) : EntryRow × ℚ).1.tenant_id = "t"
    ∧ ((c4Row, (0.75 : ℚ)) : EntryRow × ℚ).1.scope_id
        = make_scope_id (fun _ => "h") "t" c4Scope :=
  search_result_same_scope_tenant c4Db (fun _ _ => 0) (fun _ _ => 0)
    (fun _ => "h") "t" c4Scope [] "q" 10 none none none none
    (c4Row, (0.75 : ℚ))
    (by
      have htake : ("h" : String).take 24 = "h" := by decide
      have happ : "sc_" ++ "h" = "sc_h" := by decide
      simp [hybrid_search_for, search_memory, make_scope_id, c4Scope, c4Db,
        c4Row, matchesFilters, kwScoreOf, sortAscBy, sortDescBy, insertDescBy,
        optStr, htake, happ])


/-- Claim C8 (amended): the hybrid search output is ordered by the fused
score `vec_score * 0.75 + COALESCE(kw_score, 0) * 0.25` in descending
order and limited to `top_k`; the SQL applies no further sort key, so
entries with equal score appear in an unspecified order (modelled as the
candidate order) — there is no `created_at` tie-break. -/
theorem search_sorted_by_score
    (db : Db) (dist : List ℚ → List ℚ → ℚ) (sim : String → String → ℚ)
    (t sid : String) (qemb : List ℚ) (qtext : String) (top_k : ℕ)
    (kinds tags : Option (List String)) (ts te : Option ℕ) :
    (search_memory db dist sim t sid qemb qtext top_k kinds tags ts te).Pairwise
      (fun a b => b.2 ≤ a.2)
    ∧ (search_memory db dist sim t sid qemb qtext top_k kinds tags ts te).length
        ≤ top_k := by
  constructor
  · unfold search_memory
    dsimp only
    exact List.Pairwise.sublist (List.take_sublist _ _)
      (sortedDesc_sortDescBy (fun p : EntryRow × ℚ => p.2) _)
  · unfold search_memory
    dsimp only
    rw [List.length_take]
    exact min_le_left _ _


/-- Claim C8 counterexample: under a distance/similarity assignment that
scores both entries identically (`dist = 0`, `sim = 0`, fused score 0.75),
the search returns the row with the *smaller* `created_at` first — the
claimed "higher `created_at` first" tie-break does not exist in the
query. -/
theorem search_tie_break_counterexample :
    (search_memory c8Db (fun _ _ => 0) (fun _ _ => 0) "t" "s" [] "q" 10
        none none none none).map (fun p => (p.1.created_at, p.2))
      = [(1, 0.75), (2, 0.75)]
    ∧ ¬ (search_memory c8Db (fun _ _ => 0) (fun _ _ => 0) "t" "s" [] "q" 10
        none none none none).Pairwise
        (fun a b => a.2 = b.2 → b.1.created_at ≤ a.1.created_at) := by
  have hres : search_memory c8Db (fun _ _ => 0) (fun _ _ => 0) "t" "s" [] "q" 10
      none none none none = [(c8Row1, 0.75), (c8Row2, 0.75)] := by
    simp [search_memory, c8Db, c8Row1, c8Row2, matchesFilters, kwScoreOf,
      sortAscBy, sortDescBy, insertDescBy]
  rw [hres]
  constructor
  · simp [c8Row1, c8Row2]
  · intro hpw
    rcases List.pairwise_cons.mp hpw with ⟨hhead, _⟩
    have := hhead (c8Row2, 0.75) (by simp) rfl
    simp [c8Row1, c8Row2] at this


/-- Claim C5: the link queries used by `memory.get` filter by memory id
only — `memory.get` issued by tenant "tA" for its own entry returns a link
row whose `tenant_id` is "tB", so a cross-tenant read does return another
tenant's row, contradicting the claim that every read query's predicate
includes `tenant_id`. -/
theorem memory_get_returns_foreign_tenant_link :
    (memory_get_endpoint c5Db "tA" "mem_a").map
        (fun o => o.linked_to.map (fun l => l.tenant_id)) = some ["tB"]
    ∧ "tB" ≠ "tA" := by
  decide


/-- Claim C7 counterexample: the gateway hook `on_message_received` — a
write into (tenant, scope) — performs no search-cache invalidation: a key
matching `mem:sc:t:s:*` survives its cache phase untouched. -/
theorem on_message_received_keeps_scope_cache :
    scMatches "t" "s" "mem:sc:t:s:abc" = true
    ∧ (on_message_received_cache c7St 50 "t" "s" "mem_x").searchKeys
        = ["mem:sc:t:s:abc"] := by
  decide


theorem searchKeys_push_to_working_set (st : CacheState) (m : ℕ)
    (t s mem : String) :
    (push_to_working_set st m t s mem).searchKeys = st.searchKeys := rfl


theorem searchKeys_record_write (st : CacheState) (t : String) :
    (record_write st t).searchKeys = st.searchKeys := rfl


theorem not_mem_invalidate_scope_cache (st : CacheState) (t s k : String)
    (hk : scMatches t s k = true) :
    k ∉ (invalidate_scope_cache st t s).searchKeys := by
  intro hmem
  rcases List.mem_filter.mp hmem with ⟨_, hcond⟩
  rw [hk] at hcond
  exact Bool.false_ne_true hcond


/-- Claim C7 (amended): the write paths that do invalidate —
`memory.write`, `memory.summarize_scope` and the gateway hook
`on_task_completed` — delete every key matching `mem:sc:{tenant}:{scope}:*`
as part of their successful completion; the gateway hook
`on_message_received` performs no such invalidation. -/
theorem write_paths_invalidate_scope_cache
    (st : CacheState) (m : ℕ) (t s mem k : String)
    (hk : scMatches t s k = true) :
    k ∉ (memory_write_cache st m t s mem).searchKeys
    ∧ k ∉ (summarize_scope_cache st t s).searchKeys
    ∧ k ∉ (on_task_completed_cache st m t s mem).searchKeys := by
  refine ⟨?_, ?_, ?_⟩
  · unfold memory_write_cache
    rw [searchKeys_record_write]
    exact not_mem_invalidate_scope_cache _ t s k hk
  · exact not_mem_invalidate_scope_cache _ t s k hk
  · unfold on_task_completed_cache
    rw [searchKeys_record_write]
    exact not_mem_invalidate_scope_cache _ t s k hk


/-- Claim C7 witness: the concrete key of `c7St` matches the scope pattern
and is gone after each of the three invalidating cache phases. -/
theorem write_paths_invalidate_scope_cache_witness :
    "mem:sc:t:s:abc" ∉ (memory_write_cache c7St 50 "t" "s" "mem_x").searchKeys
    ∧ "mem:sc:t:s:abc" ∉ (summarize_scope_cache c7St "t" "s").searchKeys
    ∧ "mem:sc:t:s:abc"
        ∉ (on_task_completed_cache c7St 50 "t" "s" "mem_x").searchKeys :=
  write_paths_invalidate_scope_cache c7St 50 "t" "s" "mem_x" "mem:sc:t:s:abc"
    (by decide)


/-- Claim C10 counterexample: a write request whose tags list contains the
same string twice produces an entry whose stored tags contain it twice —
`write_memory` stores the request's tag list verbatim. -/
theorem duplicate_request_tags_stored :
    (match write_memory Db.empty 1 "t" "s" "chat_turn" none "c" ["x", "x"]
        none none none "h" [] with
      | .ok (_, some r) => some r.tags
      | _ => none) = some ["x", "x"]
    ∧ ¬ (["x", "x"] : List String).Nodup := by
  refine ⟨?_, by decide⟩
  decide


/-- Claim C10 (amended): `write_memory` stores the request's tag list
verbatim — duplicates in the request are persisted as given; only
`add_tag` guards against duplication: it appends its tag exactly when the
tag is absent, so it maps rows with duplicate-free tag sets to rows with
duplicate-free tag sets. -/
theorem tags_stored_verbatim_and_add_tag_nodup :
    (∀ (db : Db) (now : ℕ) (t s k : String) (ti : Option String) (c : String)
        (tg : List String) (so au tn : Option String) (h : String)
        (emb : List ℚ),
      db.entries.find? (sameTuple t s k h) = none →
      db.entries.any (fun r => r.id == make_memory_id h) = false →
      write_memory db now t s k ti c tg so au tn h emb
          = .ok (upsert_embedding
              { db with entries := db.entries
                  ++ [insertedRow now t s k ti c tg so au tn h] }
              (make_memory_id h) emb,
            some (insertedRow now t s k ti c tg so au tn h))
        ∧ (insertedRow now t s k ti c tg so au tn h).tags = tg)
    ∧ (∀ (db : Db) (now : ℕ) (mem tag : String),
        (∀ r ∈ db.entries, r.tags.Nodup) →
        ∀ r' ∈ (add_tag db now mem tag).entries, r'.tags.Nodup) := by
  constructor
  · intro db now t s k ti c tg so au tn h emb h1 h2
    exact ⟨write_memory_fresh db now t s k ti c tg so au tn h emb h1 h2, rfl⟩
  · intro db now mem tag hall r' hr'
    unfold add_tag at hr'
    rcases List.mem_map.mp hr' with ⟨r, hr, rfl⟩
    by_cases hc : (r.id == mem && !(r.tags.contains tag)) = true
    · rw [if_pos hc]
      have hnotmem : tag ∉ r.tags := by
        intro hmem
        have hcontains : r.tags.contains tag = true :=
          List.elem_eq_true_of_mem hmem
        simp only [Bool.and_eq_true, Bool.not_eq_true'] at hc
        rw [hcontains] at hc
        exact Bool.noConfusion hc.2
      have : (r.tags ++ [tag]).Nodup := by
        rw [List.nodup_append]
        exact ⟨hall r hr, List.nodup_singleton tag, by
          intro a ha hb
          rcases List.mem_singleton.mp hb with rfl
          exact hnotmem ha⟩
      simpa using this
    · rw [if_neg hc]
      exact hall r hr


/-- Claim C10 witness: a concrete verbatim write of tags ["a", "b"] from
the empty database, and `add_tag` appending "promoted" to a nodup-tagged
row keeps it nodup. -/
theorem tags_stored_verbatim_and_add_tag_nodup_witness :
    (write_memory Db.empty 4 "t" "s" "task_outcome" none "c" ["a", "b"]
        none none none "h" []
        = .ok (upsert_embedding
            { Db.empty with entries := Db.empty.entries
                ++ [insertedRow 4 "t" "s" "task_outcome" none "c"
                    ["a", "b"] none none none "h"] }
            (make_memory_id "h") [],
          some (insertedRow 4 "t" "s" "task_outcome" none "c"
            ["a", "b"] none none none "h"))
      ∧ (insertedRow 4 "t" "s" "task_outcome" none "c" ["a", "b"] none none
          none "h").tags = ["a", "b"])
    ∧ ({ c5RowA with tags := ["promoted"], updated_at := 9 } : EntryRow).tags.Nodup :=
  ⟨(tags_stored_verbatim_and_add_tag_nodup).1 Db.empty 4 "t" "s" "task_outcome"
      none "c" ["a", "b"] none none none "h" [] (by decide) (by decide),
    (tags_stored_verbatim_and_add_tag_nodup).2 c5Db 9 "mem_a" "promoted"
      (by decide) { c5RowA with tags := ["promoted"], updated_at := 9 }
      (by decide)⟩


/-- Claim C6 counterexample: the same concrete `memory.write` call returns
its normal success value when every cache operation succeeds, but returns
an error — the cache failure escapes the handler — when the working-set
push fails after the durable write succeeded.  The cache failure does
change the response. -/
theorem cache_failure_changes_write_response :
    memory_write_endpoint Db.empty 1 (fun _ => "h") (fun _ => []) "t" c6Scope
      "chat_turn" none "hello" [] none none none
      (.error .connection) (.ok ()) (.ok ())
      = .error (.cacheError .connection)
    ∧ memory_write_endpoint Db.empty 1 (fun _ => "h") (fun _ => []) "t" c6Scope
      "chat_turn" none "hello" [] none none none (.ok ()) (.ok ()) (.ok ())
      ≠ .error (.cacheError .connection) := by
  refine ⟨by decide, by decide⟩


/-- Claim C6 (amended): in the `memory.write` and `memory.search` handlers
a failure in any cache or counter operation performed after the successful
durable step propagates out of the handler — the request errors instead of
returning the normal result; the normal result is returned exactly when
those cache operations succeed. -/
theorem cache_failure_propagates
    (db : Db) (now : ℕ) (sha : String → String) (embed : String → List ℚ)
    (t : String) (scope : ScopeIn) (kind : String) (ti : Option String)
    (c : String) (tg : List String) (so au tn : Option String)
    (db' : Db) (row : EntryRow)
    (hdur : write_memory (get_or_create_scope (ensure_tenant db t) sha t scope).1
        now t (get_or_create_scope (ensure_tenant db t) sha t scope).2 kind ti c
        tg so au tn (compute_content_hash sha kind ti c)
        (embed (ti.getD "" ++ " " ++ c))
      = .ok (db', some row)) :
    (∀ (e : CacheErr) (invO recO : Except CacheErr Unit),
      memory_write_endpoint db now sha embed t scope kind ti c tg so au tn
        (.error e) invO recO = .error (.cacheError e))
    ∧ (∀ (e : CacheErr) (recO : Except CacheErr Unit),
      memory_write_endpoint db now sha embed t scope kind ti c tg so au tn
        (.ok ()) (.error e) recO = .error (.cacheError e))
    ∧ (∀ e : CacheErr,
      memory_write_endpoint db now sha embed t scope kind ti c tg so au tn
        (.ok ()) (.ok ()) (.error e) = .error (.cacheError e))
    ∧ memory_write_endpoint db now sha embed t scope kind ti c tg so au tn
        (.ok ()) (.ok ()) (.ok ()) = .ok (db', memoryOutOfRow row)
    ∧ (∀ (dist : List ℚ → List ℚ → ℚ) (sim : String → String → ℚ)
        (query : String) (top_k : ℕ) (kinds tags : Option (List String))
        (ts te : Option ℕ) (e : CacheErr) (recO : Except CacheErr Unit),
      memory_search_endpoint db dist sim sha embed t scope query top_k kinds
        tags ts te (.ok none) (.error e) recO = .error (.cacheError e))
    ∧ (∀ (dist : List ℚ → List ℚ → ℚ) (sim : String → String → ℚ)
        (query : String) (top_k : ℕ) (kinds tags : Option (List String))
        (ts te : Option ℕ) (e : CacheErr),
      memory_search_endpoint db dist sim sha embed t scope query top_k kinds
        tags ts te (.ok none) (.ok ()) (.error e) = .error (.cacheError e))
    ∧ (∀ (dist : List ℚ → List ℚ → ℚ) (sim : String → String → ℚ)
        (query : String) (top_k : ℕ) (kinds tags : Option (List String))
        (ts te : Option ℕ),
      memory_search_endpoint db dist sim sha embed t scope query top_k kinds
        tags ts te (.ok none) (.ok ()) (.ok ())
        = .ok (hybrid_search_for db dist sim sha t scope (embed query) query
            top_k kinds tags ts te)) := by
  refine ⟨?_, ?_, ?_, ?_, ?_, ?_, ?_⟩
  · intro e invO recO
    unfold memory_write_endpoint
    dsimp only
    rw [hdur]
  · intro e recO
    unfold memory_write_endpoint
    dsimp only
    rw [hdur]
  · intro e
    unfold memory_write_endpoint
    dsimp only
    rw [hdur]
  · unfold memory_write_endpoint
    dsimp only
    rw [hdur]
  · intro dist sim query top_k kinds tags ts te e recO
    rfl
  · intro dist sim query top_k kinds tags ts te e
    rfl
  · intro dist sim query top_k kinds tags ts te
    rfl


/-- Claim C6 witness: the amended behaviour at a concrete write and a
concrete search. -/
theorem cache_failure_propagates_witness :
    memory_write_endpoint Db.empty 1 (fun _ => "h") (fun _ => []) "t" c6Scope
      "chat_turn" none "hello" [] none none none
      (.error .connection) (.ok ()) (.ok ()) = .error (.cacheError .connection)
    ∧ memory_write_endpoint Db.empty 1 (fun _ => "h") (fun _ => []) "t" c6Scope
      "chat_turn" none "hello" [] none none none
      (.ok ()) (.error .connection) (.ok ()) = .error (.cacheError .connection)
    ∧ memory_write_endpoint Db.empty 1 (fun _ => "h") (fun _ => []) "t" c6Scope
      "chat_turn" none "hello" [] none none none
      (.ok ()) (.ok ()) (.error .connection) = .error (.cacheError .connection)
    ∧ memory_search_endpoint Db.empty (fun _ _ => 0) (fun _ _ => 0)
      (fun _ => "h") (fun _ => []) "t" c6Scope "q" 5 none none none none
      (.ok none) (.error .connection) (.ok ())
      = .error (.cacheError .connection) := by
  have h := cache_failure_propagates Db.empty 1 (fun _ => "h") (fun _ => [])
    "t" c6Scope "chat_turn" none "hello" [] none none none
    (upsert_embedding
      { entries := [insertedRow 1 "t"
          (make_scope_id (fun _ => "h") "t" c6Scope) "chat_turn" none "hello"
          [] none none none "h"],
        tenants := ["t"],
        scopes := [(make_scope_id (fun _ => "h") "t" c6Scope, "t", c6Scope)],
        embeddings := [], links := [], attachments := [] }
      (make_memory_id "h") [])
    (insertedRow 1 "t" (make_scope_id (fun _ => "h") "t" c6Scope) "chat_turn"
      none "hello" [] none none none "h")
    (by decide)
  exact ⟨h.1 .connection (.ok ()) (.ok ()), h.2.1 .connection (.ok ()),
    h.2.2.1 .connection,
    h.2.2.2.2.1 (fun _ _ => 0) (fun _ _ => 0) "q" 5 none none none none
      .connection (.ok ())⟩


end McpMemory
